import Mathlib

/-!
Verification of the DynoTUI plan-validation and two-phase mutation engine.

The Go sources modelled here (all from the repository):
* `bedrock.go` — `LLMResult` schema, the validation block of `InvokeBedrock`
  (lines 213-224), `FormatPartiQLValue`, `SubstituteKeys`;
* the later snapshot of `bedrock.go` (src/unnamed/part_007) — the variant of
  `SubstituteKeys` that also checks placeholder presence (lines 323-345);
* `aws.go` — `BatchSqlQuery` (chunked `BatchExecuteStatement` submission) and
  `unmarshalAttributeValue` (wire-value decoding).

Go strings are modelled as `List Char`; Go `interface{}` values handled by the
formatter are modelled by `GoVal`; the DynamoDB wire value type
(`types.AttributeValue`) by `AV`; remote calls are modelled as oracles passed
in explicitly.
-/

namespace DynoTUI

/-- Go strings, modelled as lists of characters. -/
abbrev Str := List Char

/-- Turn a Lean string literal into the Go-string model. -/
def strL (s : String) : Str := s.toList

/-- The single-quote character (escaped in PartiQL string literals). -/
def quoteChar : Char := Char.ofNat 39

/-- Fueled worker for `replaceAll`.  One unit of fuel is spent per step; a
step consumes at least one character, so fuel equal to the length of the
string is always enough.  Mirrors the left-to-right, non-overlapping
replacement of Go's `strings.ReplaceAll`.  (Go treats an empty pattern
specially — insertion at every boundary — but no call site in the sources
uses an empty pattern, so that case returns the string unchanged here.) -/
def replaceAllGo (pat rep : Str) : Nat → Str → Str
  | 0, s => s
  | _ + 1, [] => []
  | fuel + 1, c :: rest =>
    if pat.isPrefixOf (c :: rest) && !pat.isEmpty then
      rep ++ replaceAllGo pat rep fuel ((c :: rest).drop pat.length)
    else
      c :: replaceAllGo pat rep fuel rest

/-- Go `strings.ReplaceAll(s, pat, rep)`. -/
def replaceAll (s pat rep : Str) : Str := replaceAllGo pat rep s.length s

/-- Go `strings.Contains(s, sub)`: `sub` occurs as a contiguous substring. -/
def strContains (s sub : Str) : Bool := decide (sub <:+: s)

/-- The literal `{{PK}}` placeholder. -/
def pkPlaceholder : Str := strL "\x7b\x7bPK\x7d\x7d"

/-- The literal `{{SK}}` placeholder. -/
def skPlaceholder : Str := strL "\x7b\x7bSK\x7d\x7d"

/-- The Go `interface{}` values distinguished by `FormatPartiQLValue`
(bedrock.go lines 227-251): its `switch` has cases for `string`, `float64`,
`int`, `int64` and `bool`, and a default (error) case that in practice
receives `nil` (a missing map key), maps and lists.  A `float64` holding an
exactly integral value is modelled by `floatInt` (that is the
`t == float64(int64(t))` branch; non-integral floats never arise in the
verified claims and would need floating-point arithmetic). -/
inductive GoVal where
  | str (s : Str)
  | floatInt (n : Int)
  | int (n : Int)
  | int64 (n : Int)
  | bool (b : Bool)
  | null
  | map (entries : List (Str × GoVal))
  | list (elems : List GoVal)

/-- The text `%T` produces for each modelled dynamic value (used by the
default branch of `FormatPartiQLValue`). -/
def goTypeName : GoVal → Str
  | .str _ => strL "string"
  | .floatInt _ => strL "float64"
  | .int _ => strL "int"
  | .int64 _ => strL "int64"
  | .bool _ => strL "bool"
  | .null => strL "<nil>"
  | .map _ => strL "map[string]interface \x7b\x7d"
  | .list _ => strL "[]interface \x7b\x7d"

/-- Decimal rendering of an integer (Go `strconv.FormatInt(n, 10)` /
`strconv.Itoa`). -/
def intToStr (n : Int) : Str := (toString n).toList

/-- The function `FormatPartiQLValue` (bedrock.go lines 227-251): renders a dynamic value
as a PartiQL literal, or fails on unsupported types. -/
def FormatPartiQLValue : GoVal → Except Str Str
  | .str t => .ok (quoteChar :: (replaceAll t [quoteChar] [quoteChar, quoteChar] ++ [quoteChar]))
  | .floatInt n => .ok (intToStr n)
  | .int n => .ok (intToStr n)
  | .int64 n => .ok (intToStr n)
  | .bool true => .ok (strL "true")
  | .bool false => .ok (strL "false")
  | v => .error (strL "unsupported key type " ++ goTypeName v)

/-- The function `SubstituteKeys` (bedrock.go lines 253-268): format the partition-key
value and replace every `{{PK}}`; when the table has a sort key, also format
the sort-key value and replace every `{{SK}}`. -/
def SubstituteKeys (tpl : Str) (pkVal skVal : GoVal) (hasSK : Bool) : Except Str Str :=
  match FormatPartiQLValue pkVal with
  | .error e => .error (strL "format PK: " ++ e)
  | .ok pkStr =>
    let out := replaceAll tpl pkPlaceholder pkStr
    if hasSK then
      match FormatPartiQLValue skVal with
      | .error e => .error (strL "format SK: " ++ e)
      | .ok skStr => .ok (replaceAll out skPlaceholder skStr)
    else
      .ok out

/-- The later snapshot's `SubstituteKeys` (src/unnamed/part_007 lines
323-345): identical to the above but first rejects a template without
`{{PK}}`, and (when the table has a sort key) a template without `{{SK}}`. -/
def SubstituteKeysChecked (tpl : Str) (pkVal skVal : GoVal) (hasSK : Bool) : Except Str Str :=
  if !strContains tpl pkPlaceholder then
    .error (strL "template missing \x7b\x7bPK\x7d\x7d placeholder")
  else
    match FormatPartiQLValue pkVal with
    | .error e => .error (strL "format PK: " ++ e)
    | .ok pkStr =>
      let out := replaceAll tpl pkPlaceholder pkStr
      if hasSK then
        if !strContains tpl skPlaceholder then
          .error (strL "template missing \x7b\x7bSK\x7d\x7d placeholder for table with sort key")
        else
          match FormatPartiQLValue skVal with
          | .error e => .error (strL "format SK: " ++ e)
          | .ok skStr => .ok (replaceAll out skPlaceholder skStr)
      else
        .ok out

/-- An in-memory item, as the Go `map[string]interface{}` the substitution
call sites hold (association list; Go map indexing of a missing key yields
the zero value `nil`, see `itemGet`). -/
abbrev ItemMap := List (Str × GoVal)

/-- Go map indexing `item[k]`: the stored value, or `nil` when absent. -/
def itemGet (item : ItemMap) (k : Str) : GoVal :=
  match item.lookup k with
  | some v => v
  | none => .null

end DynoTUI

namespace DynoTUI

/-- The struct `ReadBlock` (bedrock.go lines 56-61). -/
structure ReadBlock where
  partiql : Str
  requiresScan : Bool
  index : Option Str
  projection : List Str
deriving DecidableEq

/-- The struct `WriteBlock` (bedrock.go lines 63-68); the nested `PerItem` struct is
flattened to its single field `partiql_template`. -/
structure WriteBlock where
  action : Str
  partiqlTemplate : Str
deriving DecidableEq

/-- The struct `SafetyBlock` (bedrock.go lines 70-73). -/
structure SafetyBlock where
  needsConfirmation : Bool
  reason : Str
deriving DecidableEq

/-- The struct `PlanBlock` (bedrock.go lines 48-54). -/
structure PlanBlock where
  table : Str
  operation : Str
  read : ReadBlock
  write : Option WriteBlock
  safety : SafetyBlock
deriving DecidableEq

/-- The struct `LLMResult` (bedrock.go lines 42-46). -/
structure LLMResult where
  mode : Str
  statements : List Str
  plan : Option PlanBlock
deriving DecidableEq

/-- The third validation condition of `InvokeBedrock` (bedrock.go line 220):
`result.Plan != nil && result.Plan.Operation == "scan_then_write" &&
result.Plan.Write == nil`. -/
def scanWriteViolation (r : LLMResult) : Bool :=
  match r.plan with
  | some p => decide (p.operation = strL "scan_then_write") && p.write.isNone
  | none => false

/-- The validation block of `InvokeBedrock` (bedrock.go lines 213-224):
the error of the first failing check, or `none` when the result is accepted
and returned to the caller. -/
def validateLLMResult (r : LLMResult) : Option Str :=
  if r.mode = strL "sql" ∧ r.statements = [] then
    some (strL "mode=sql but no statements returned")
  else if r.mode = strL "plan" ∧ r.plan = none then
    some (strL "mode=plan but plan is null")
  else if scanWriteViolation r then
    some (strL "scan_then_write requires write block")
  else
    none

/-- Replace the read and safety blocks of the plan (when present), leaving
everything the validator looks at untouched. -/
def withReadSafety (r : LLMResult) (rb : ReadBlock) (sb : SafetyBlock) : LLMResult :=
  { r with plan := r.plan.map fun p => { p with read := rb, safety := sb } }

end DynoTUI
namespace DynoTUI

theorem scanWriteViolation_eq_false_iff (r : LLMResult) :
    scanWriteViolation r = false ↔
      ∀ p, r.plan = some p →
        ¬(p.operation = strL "scan_then_write" ∧ p.write = none) := by
  cases h : r.plan with
  | none => simp [scanWriteViolation, h]
  | some p =>
    cases hw : p.write with
    | some w => simp [scanWriteViolation, h, hw]
    | none => simp [scanWriteViolation, h, hw]

theorem scanWriteViolation_eq_true_of (r : LLMResult) (p : PlanBlock)
    (hp : r.plan = some p) (hop : p.operation = strL "scan_then_write")
    (hw : p.write = none) : scanWriteViolation r = true := by
  simp [scanWriteViolation, hp, hop, hw]

end DynoTUI
namespace DynoTUI

/-- A read block used by the concrete examples. -/
def sampleRead : ReadBlock :=
  { partiql := strL "SELECT * FROM \"T\"", requiresScan := false,
    index := none, projection := [strL "*"] }

/-- A safety block used by the concrete examples. -/
def sampleSafety : SafetyBlock :=
  { needsConfirmation := true, reason := strL "none" }

/-- A parsed model output in which two variants are populated at once:
`mode="sql"` with a non-empty statement list AND a non-null plan block. -/
def exBothVariants : LLMResult :=
  { mode := strL "sql",
    statements := [strL "SELECT * FROM \"T\""],
    plan := some
      { table := strL "T", operation := strL "select",
        read := sampleRead, write := none, safety := sampleSafety } }

/-- C1, counterexample: the validator accepts a result in which more than one
variant is active (`mode="sql"`, non-empty statements, non-null plan), so
validation does not require that exactly one variant be active for the mode. -/
theorem C1_exclusivity_counterexample :
    validateLLMResult exBothVariants = none ∧
    exBothVariants.statements ≠ [] ∧
    exBothVariants.plan ≠ none := by
  refine ⟨by decide, by decide, by decide⟩

/-- C1, amended: the validation block of `InvokeBedrock` accepts a result iff
the three implications hold (`mode="sql"` ⇒ statements non-empty,
`mode="plan"` ⇒ plan non-null, `operation="scan_then_write"` ⇒ write
non-null), and each violation produces its own named error; exclusivity of
the variants is not checked. -/
theorem C1_validator_amended (r : LLMResult) :
    (validateLLMResult r = none ↔
      (¬(r.mode = strL "sql" ∧ r.statements = []) ∧
       ¬(r.mode = strL "plan" ∧ r.plan = none) ∧
       ∀ p, r.plan = some p →
         ¬(p.operation = strL "scan_then_write" ∧ p.write = none))) ∧
    (r.mode = strL "sql" ∧ r.statements = [] →
      validateLLMResult r = some (strL "mode=sql but no statements returned")) ∧
    (r.mode = strL "plan" ∧ r.plan = none →
      validateLLMResult r = some (strL "mode=plan but plan is null")) ∧
    (∀ p, r.plan = some p → p.operation = strL "scan_then_write" →
      p.write = none → ¬(r.mode = strL "sql" ∧ r.statements = []) →
      validateLLMResult r = some (strL "scan_then_write requires write block")) := by
  refine ⟨?_, ?_, ?_, ?_⟩
  · unfold validateLLMResult
    split_ifs with h1 h2 h3
    · simp_all
    · simp_all
    · constructor
      · intro h
        cases h
      · rintro ⟨-, -, c⟩
        rw [(scanWriteViolation_eq_false_iff r).mpr c] at h3
        cases h3
    · rw [Bool.not_eq_true] at h3
      rw [scanWriteViolation_eq_false_iff] at h3
      exact ⟨fun _ => ⟨h1, h2, h3⟩, fun _ => rfl⟩
  · intro h
    unfold validateLLMResult
    rw [if_pos h]
  · intro h
    unfold validateLLMResult
    rw [if_neg, if_pos h]
    rintro ⟨hsql, _⟩
    rw [hsql] at h
    exact absurd h.1 (by decide)
  · intro p hp hop hw h1
    unfold validateLLMResult
    rw [if_neg h1, if_neg, if_pos (scanWriteViolation_eq_true_of r p hp hop hw)]
    rintro ⟨_, hnone⟩
    rw [hp] at hnone
    cases hnone

end DynoTUI
namespace DynoTUI

/-- Witness for `C1_validator_amended` at a concrete rejected result. -/
theorem C1_validator_amended_witness :
    validateLLMResult { mode := strL "sql", statements := [], plan := none } =
      some (strL "mode=sql but no statements returned") :=
  (C1_validator_amended { mode := strL "sql", statements := [], plan := none }).2.1
    ⟨rfl, rfl⟩

/-- A parsed plan whose read block demands a full scan but whose safety block
does not ask for confirmation (and carries reason `"none"`). -/
def exScanNoConfirm : LLMResult :=
  { mode := strL "plan",
    statements := [],
    plan := some
      { table := strL "T", operation := strL "select",
        read := { partiql := strL "SELECT * FROM \"T\"", requiresScan := true,
                  index := none, projection := [strL "*"] },
        write := none,
        safety := { needsConfirmation := false, reason := strL "none" } } }

/-- C2, counterexample: a plan with `requires_scan=true` but
`needs_confirmation=false` (reason `"none"`) is accepted by validation, so
the claimed implication is not enforced and such a plan is not rejected. -/
theorem C2_scan_confirmation_counterexample :
    validateLLMResult exScanNoConfirm = none ∧
    ∃ p, exScanNoConfirm.plan = some p ∧
      p.read.requiresScan = true ∧
      p.safety.needsConfirmation = false ∧
      p.safety.reason ≠ strL "full_table_scan" := by
  refine ⟨by decide, _, rfl, by decide, by decide, by decide⟩

/-- C2, amended: validation never inspects the read or safety blocks —
replacing them by arbitrary blocks (any `requires_scan`, any
`needs_confirmation`, any reason) does not change the validator's verdict,
so the documented implication is not checked and a violating plan is not
rejected.  (The implication is only requested of the model in the prompt
text.) -/
theorem C2_validator_ignores_read_safety (r : LLMResult)
    (rb : ReadBlock) (sb : SafetyBlock) :
    validateLLMResult (withReadSafety r rb sb) = validateLLMResult r := by
  cases h : r.plan with
  | none =>
    unfold validateLLMResult scanWriteViolation withReadSafety
    simp [h]
  | some p =>
    unfold validateLLMResult scanWriteViolation withReadSafety
    simp [h]

end DynoTUI
namespace DynoTUI

/-- A parsed `scan_then_write` plan whose per-item template contains no
`{{PK}}` placeholder at all. -/
def exWriteNoPK : LLMResult :=
  { mode := strL "plan",
    statements := [],
    plan := some
      { table := strL "T", operation := strL "scan_then_write",
        read := sampleRead,
        write := some { action := strL "delete",
                        partiqlTemplate := strL "DELETE FROM \"T\"" },
        safety := { needsConfirmation := true,
                    reason := strL "multi_item_write" } } }

/-- C3, counterexample: a plan with a non-null write block whose template
contains no `{{PK}}` is accepted by validation (the validator never inspects
the template), so validation does not fail on missing or foreign
placeholders. -/
theorem C3_template_validation_counterexample :
    validateLLMResult exWriteNoPK = none ∧
    ∃ p w, exWriteNoPK.plan = some p ∧ p.write = some w ∧
      strContains w.partiqlTemplate pkPlaceholder = false := by
  refine ⟨by decide, _, _, rfl, rfl, by decide⟩

/-- A template containing exactly the `{{PK}}` and `{{SK}}` placeholders. -/
def tplBothKeys : Str :=
  strL "DELETE FROM \"T\" WHERE \"a\"=\x7b\x7bPK\x7d\x7d AND \"b\"=\x7b\x7bSK\x7d\x7d"

/-- A template containing `{{PK}}` plus a foreign `{{XX}}` placeholder. -/
def tplForeign : Str :=
  strL "UPDATE \"T\" SET \"v\"=\x7b\x7bXX\x7d\x7d WHERE \"a\"=\x7b\x7bPK\x7d\x7d"

/-- C3, amended: the placeholder checks live in the later snapshot's
`SubstituteKeys` (run per item at substitution time, not during plan
validation): it fails when the template lacks `{{PK}}`, and, on a table with
a sort key, when it lacks `{{SK}}`; a template with exactly `{{PK}}` and
`{{SK}}` passes.  No check anywhere rejects a foreign `{{...}}` placeholder —
it survives verbatim into the generated statement. -/
theorem C3_placeholder_checks_amended :
    (∀ tpl pkVal skVal hasSK, strContains tpl pkPlaceholder = false →
      SubstituteKeysChecked tpl pkVal skVal hasSK =
        .error (strL "template missing \x7b\x7bPK\x7d\x7d placeholder")) ∧
    (∀ tpl pkVal skVal pkStr, strContains tpl pkPlaceholder = true →
      strContains tpl skPlaceholder = false →
      FormatPartiQLValue pkVal = .ok pkStr →
      SubstituteKeysChecked tpl pkVal skVal true =
        .error (strL "template missing \x7b\x7bSK\x7d\x7d placeholder for table with sort key")) ∧
    (SubstituteKeysChecked tplBothKeys (.int 7) (.int 9) true =
      .ok (strL "DELETE FROM \"T\" WHERE \"a\"=7 AND \"b\"=9")) ∧
    (SubstituteKeysChecked tplForeign (.int 7) .null false =
      .ok (strL "UPDATE \"T\" SET \"v\"=\x7b\x7bXX\x7d\x7d WHERE \"a\"=7")) := by
  refine ⟨?_, ?_, by rfl, by rfl⟩
  · intro tpl pkVal skVal hasSK h
    unfold SubstituteKeysChecked
    rw [h]
    rfl
  · intro tpl pkVal skVal pkStr hpk hsk hfmt
    unfold SubstituteKeysChecked
    rw [hpk, hfmt]
    simp only [Bool.not_true, Bool.false_eq_true, if_false, if_true]
    rw [hsk]
    rfl

/-- Witness for `C3_placeholder_checks_amended` at concrete inputs. -/
theorem C3_placeholder_checks_amended_witness :
    (SubstituteKeysChecked (strL "DELETE FROM \"T\"") (.int 1) .null false =
      .error (strL "template missing \x7b\x7bPK\x7d\x7d placeholder")) ∧
    (SubstituteKeysChecked (strL "DELETE WHERE \x7b\x7bPK\x7d\x7d") (.int 1) (.int 2) true =
      .error (strL "template missing \x7b\x7bSK\x7d\x7d placeholder for table with sort key")) :=
  ⟨C3_placeholder_checks_amended.1 _ _ _ _ (by decide),
   C3_placeholder_checks_amended.2.1 _ _ _ (strL "1") (by decide) (by decide) (by rfl)⟩

end DynoTUI
namespace DynoTUI

/-- Quote escaping written structurally: every single quote doubled, all
other characters unchanged. -/
def escapeQuotes : Str → Str
  | [] => []
  | c :: rest =>
    if c = quoteChar then quoteChar :: quoteChar :: escapeQuotes rest
    else c :: escapeQuotes rest

/-- Scanning left to right, every single quote is immediately followed by a
second one — i.e. the string contains no unescaped single quote. -/
def noLoneQuote : Str → Bool
  | [] => true
  | [c] => decide (c ≠ quoteChar)
  | c :: d :: rest =>
    if c = quoteChar then
      if d = quoteChar then noLoneQuote rest else false
    else noLoneQuote (d :: rest)

theorem replaceAllGo_quote (fuel : Nat) :
    ∀ s : Str, s.length ≤ fuel →
      replaceAllGo [quoteChar] [quoteChar, quoteChar] fuel s = escapeQuotes s := by
  induction fuel with
  | zero =>
    intro s h
    cases s with
    | nil => rfl
    | cons c rest => simp at h
  | succ n ih =>
    intro s h
    cases s with
    | nil => rfl
    | cons c rest =>
      have hr : rest.length ≤ n := by simpa using h
      by_cases hc : c = quoteChar
      · subst hc
        simp [replaceAllGo, escapeQuotes, ih rest hr]
      · have hc2 : (quoteChar == c) = false := by
          simp [Ne.symm hc]
        simp [replaceAllGo, escapeQuotes, hc, hc2, ih rest hr, Ne.symm hc]

end DynoTUI
namespace DynoTUI

theorem replaceAll_quote (s : Str) :
    replaceAll s [quoteChar] [quoteChar, quoteChar] = escapeQuotes s :=
  replaceAllGo_quote s.length s le_rfl

theorem noLoneQuote_cons (c : Char) (t : Str) (hc : c ≠ quoteChar) :
    noLoneQuote (c :: t) = noLoneQuote t := by
  cases t with
  | nil => simp [noLoneQuote, hc]
  | cons d rest => simp [noLoneQuote, hc]

theorem noLoneQuote_escapeQuotes (s : Str) :
    noLoneQuote (escapeQuotes s) = true := by
  induction s with
  | nil => rfl
  | cons c rest ih =>
    by_cases hc : c = quoteChar
    · subst hc
      simp [escapeQuotes, noLoneQuote, ih]
    · simp only [escapeQuotes, if_neg hc]
      rw [noLoneQuote_cons c _ hc]
      exact ih

theorem count_escapeQuotes (s : Str) :
    (escapeQuotes s).count quoteChar = 2 * s.count quoteChar := by
  induction s with
  | nil => rfl
  | cons c rest ih =>
    by_cases hc : c = quoteChar
    · subst hc
      simp [escapeQuotes, List.count_cons, ih]
      omega
    · simp [escapeQuotes, List.count_cons, hc, ih]

/-- C4: formatting a string value always yields the single-quoted literal
with every embedded single quote doubled; the escaped body has no unescaped
quote and exactly twice as many quotes as the input; and `SubstituteKeys`
splices exactly this escaped literal for every string key value, with and
without a sort key — no exceptions. -/
theorem C4_string_escaping :
    (∀ s : Str, FormatPartiQLValue (.str s) =
      .ok (quoteChar :: (escapeQuotes s ++ [quoteChar]))) ∧
    (∀ s : Str, noLoneQuote (escapeQuotes s) = true) ∧
    (∀ s : Str, (escapeQuotes s).count quoteChar = 2 * s.count quoteChar) ∧
    (∀ tpl s skVal, SubstituteKeys tpl (.str s) skVal false =
      .ok (replaceAll tpl pkPlaceholder
            (quoteChar :: (escapeQuotes s ++ [quoteChar])))) ∧
    (∀ tpl s u, SubstituteKeys tpl (.str s) (.str u) true =
      .ok (replaceAll
            (replaceAll tpl pkPlaceholder
              (quoteChar :: (escapeQuotes s ++ [quoteChar])))
            skPlaceholder
            (quoteChar :: (escapeQuotes u ++ [quoteChar])))) := by
  have hfmt : ∀ s : Str, FormatPartiQLValue (.str s) =
      .ok (quoteChar :: (escapeQuotes s ++ [quoteChar])) := by
    intro s
    simp [FormatPartiQLValue, replaceAll_quote]
  refine ⟨hfmt, noLoneQuote_escapeQuotes, count_escapeQuotes, ?_, ?_⟩
  · intro tpl s skVal
    unfold SubstituteKeys
    rw [hfmt s]
    simp
  · intro tpl s u
    unfold SubstituteKeys
    rw [hfmt s, hfmt u]
    simp

end DynoTUI
namespace DynoTUI

theorem replaceAllGo_of_not_infix (pat rep : Str) (fuel : Nat) :
    ∀ s : Str, s.length ≤ fuel → ¬ pat <:+: s →
      replaceAllGo pat rep fuel s = s := by
  induction fuel with
  | zero =>
    intro s h _
    cases s with
    | nil => rfl
    | cons c rest => simp at h
  | succ n ih =>
    intro s h hinf
    cases s with
    | nil => rfl
    | cons c rest =>
      have h1 : ¬ pat <+: (c :: rest) := fun hp => hinf hp.isInfix
      have h2 : ¬ pat <:+: rest := fun hp => hinf (List.infix_cons hp)
      have hpre : pat.isPrefixOf (c :: rest) = false := by
        rw [← Bool.not_eq_true, List.isPrefixOf_iff_prefix]
        exact h1
      have hr : rest.length ≤ n := by simpa using h
      simp [replaceAllGo, hpre, ih rest hr h2]

theorem replaceAll_of_not_infix (s pat rep : Str) (h : ¬ pat <:+: s) :
    replaceAll s pat rep = s :=
  replaceAllGo_of_not_infix pat rep s.length s le_rfl h

/-- The item of the spec's substitution example. -/
def exItem : ItemMap :=
  [(strL "id", GoVal.floatInt 42), (strL "age", GoVal.floatInt 7)]

/-- C5: substitution fills `{{PK}}` with the formatted key value — on the
item `\x7bid: 42, age: 7\x7d` (the key attribute `id` holding the number 42)
and template `DELETE FROM "T" WHERE "id" = \x7b\x7bPK\x7d\x7d` it yields
exactly `DELETE FROM "T" WHERE "id" = 42`; every occurrence is replaced (a
template using the placeholder twice has both filled); and text without the
placeholder is left unchanged. -/
theorem C5_substitution_correct :
    (SubstituteKeys (strL "DELETE FROM \"T\" WHERE \"id\" = \x7b\x7bPK\x7d\x7d")
        (itemGet exItem (strL "id")) .null false =
      .ok (strL "DELETE FROM \"T\" WHERE \"id\" = 42")) ∧
    (SubstituteKeys
        (strL "UPDATE \"T\" SET \"c\"=\x7b\x7bPK\x7d\x7d WHERE \"id\"=\x7b\x7bPK\x7d\x7d")
        (itemGet exItem (strL "id")) .null false =
      .ok (strL "UPDATE \"T\" SET \"c\"=42 WHERE \"id\"=42")) ∧
    (∀ tpl rep : Str, ¬ pkPlaceholder <:+: tpl →
      replaceAll tpl pkPlaceholder rep = tpl) :=
  ⟨by rfl, by rfl, fun tpl rep h => replaceAll_of_not_infix tpl pkPlaceholder rep h⟩

/-- Witness for `C5_substitution_correct` at concrete inputs. -/
theorem C5_substitution_correct_witness :
    replaceAll (strL "DELETE FROM \"T\"") pkPlaceholder (strL "42") =
      strL "DELETE FROM \"T\"" :=
  C5_substitution_correct.2.2 _ _ (by decide)

end DynoTUI
namespace DynoTUI

/-- C6, counterexample: substituting for an item that lacks the
partition-key attribute does fail and produces no statement, but the error
is the `nil`-value formatting error `format PK: unsupported key type <nil>`;
it does not mention `MissingKeyAttribute` (no such error exists anywhere in
the code). -/
theorem C6_missing_key_counterexample :
    SubstituteKeys (strL "DELETE FROM \"T\" WHERE \"id\" = \x7b\x7bPK\x7d\x7d")
        (itemGet [] (strL "id")) .null false =
      .error (strL "format PK: unsupported key type <nil>") ∧
    strContains (strL "format PK: unsupported key type <nil>")
      (strL "MissingKeyAttribute") = false :=
  ⟨by rfl, by decide⟩

/-- C6, amended: when the item lacks the partition-key attribute, the Go map
lookup yields `nil` and substitution fails — producing no statement — with
the PK formatting error `unsupported key type <nil>`; a missing sort-key
attribute on a sort-keyed table likewise fails with the SK formatting error.
The failure is the `UnsupportedValueType` path; no distinct
`MissingKeyAttribute` error exists. -/
theorem C6_missing_key_amended :
    (∀ (item : ItemMap) (pk tpl : Str) (skVal : GoVal) (hasSK : Bool),
      item.lookup pk = none →
      SubstituteKeys tpl (itemGet item pk) skVal hasSK =
        .error (strL "format PK: unsupported key type <nil>")) ∧
    (∀ (item : ItemMap) (sk tpl : Str) (pkVal : GoVal) (pkStr : Str),
      FormatPartiQLValue pkVal = .ok pkStr →
      item.lookup sk = none →
      SubstituteKeys tpl pkVal (itemGet item sk) true =
        .error (strL "format SK: unsupported key type <nil>")) := by
  constructor
  · intro item pk tpl skVal hasSK h
    have hg : itemGet item pk = .null := by simp [itemGet, h]
    rw [hg]
    rfl
  · intro item sk tpl pkVal pkStr hfmt h
    have hg : itemGet item sk = .null := by simp [itemGet, h]
    rw [hg]
    unfold SubstituteKeys
    rw [hfmt]
    rfl

/-- Witness for `C6_missing_key_amended` at concrete inputs. -/
theorem C6_missing_key_amended_witness :
    (SubstituteKeys (strL "x\x7b\x7bPK\x7d\x7d") (itemGet exItem (strL "zzz"))
        .null false =
      .error (strL "format PK: unsupported key type <nil>")) ∧
    (SubstituteKeys (strL "x") (.int 5) (itemGet exItem (strL "zzz")) true =
      .error (strL "format SK: unsupported key type <nil>")) :=
  ⟨C6_missing_key_amended.1 exItem _ _ _ _ (by rfl),
   C6_missing_key_amended.2 exItem _ _ _ (strL "5") (by rfl) (by rfl)⟩

end DynoTUI
namespace DynoTUI

/-- The DynamoDB wire value type (`types.AttributeValue`) as matched by
`unmarshalAttributeValue` (aws.go lines 461-488): string, number (kept as
decimal text), binary, string/number/binary sets, boolean, null marker, map
and list.  The constructors the decoder does not handle (`B`, `SS`, `NS`,
`BS`) fall into its `default` branch.  The Go map inside `M` is modelled as
an association list. -/
inductive AV where
  | S (v : Str)
  | N (v : Str)
  | B (v : List Nat)
  | SS (v : List Str)
  | NS (v : List Str)
  | BS (v : List (List Nat))
  | BOOL (v : Bool)
  | NULL
  | M (v : List (Str × AV))
  | L (v : List AV)

/-- The native values the decoder produces: strings (a wire number keeps its
original decimal text and also lands here), booleans, null, and nested
maps/lists of the same. -/
inductive NativeVal where
  | str (s : Str)
  | bool (b : Bool)
  | null
  | map (entries : List (Str × NativeVal))
  | list (elems : List NativeVal)

mutual
/-- The function `unmarshalAttributeValue` (aws.go lines 461-488): tagged wire value to
native value; strings and numbers both decode to strings (numbers keep
their decimal text), maps and lists decode recursively, `NULL` and every
unhandled tag decode to null. -/
def unmarshalAttributeValue : AV → NativeVal
  | .S v => .str v
  | .N v => .str v
  | .BOOL b => .bool b
  | .M kvs => .map (unmarshalEntries kvs)
  | .L xs => .list (unmarshalList xs)
  | .NULL => .null
  | .B _ => .null
  | .SS _ => .null
  | .NS _ => .null
  | .BS _ => .null
/-- The entry-wise recursion of the decoder's `M` case. -/
def unmarshalEntries : List (Str × AV) → List (Str × NativeVal)
  | [] => []
  | (k, v) :: rest => (k, unmarshalAttributeValue v) :: unmarshalEntries rest
/-- The element-wise recursion of the decoder's `L` case. -/
def unmarshalList : List AV → List NativeVal
  | [] => []
  | v :: rest => unmarshalAttributeValue v :: unmarshalList rest
end

/-- The function `unmarshalItem` (aws.go lines 491-497): decode every attribute of a wire
item. -/
def unmarshalItem (item : List (Str × AV)) : List (Str × NativeVal) :=
  unmarshalEntries item

mutual
/-- Modelled from the spec: the encode half of the Key-Value Codec (spec
§4.1 — "Encode is the inverse and must round-trip").  The repository
delegates encoding to the AWS SDK's `attributevalue` marshaller, which is
not part of src/; following the spec, each native value is tagged with its
wire constructor (strings — including numeric decimal text — as `S`,
booleans as `BOOL`, null as `NULL`, maps and lists recursively). -/
def marshalAttributeValue : NativeVal → AV
  | .str s => .S s
  | .bool b => .BOOL b
  | .null => .NULL
  | .map kvs => .M (marshalEntries kvs)
  | .list xs => .L (marshalList xs)
/-- Modelled from the spec: entry-wise encoding of a native map. -/
def marshalEntries : List (Str × NativeVal) → List (Str × AV)
  | [] => []
  | (k, v) :: rest => (k, marshalAttributeValue v) :: marshalEntries rest
/-- Modelled from the spec: element-wise encoding of a native list. -/
def marshalList : List NativeVal → List AV
  | [] => []
  | v :: rest => marshalAttributeValue v :: marshalList rest
end

mutual
theorem unmarshal_marshal :
    ∀ v : NativeVal, unmarshalAttributeValue (marshalAttributeValue v) = v
  | .str _ => rfl
  | .bool _ => rfl
  | .null => rfl
  | .map kvs => by
    rw [marshalAttributeValue, unmarshalAttributeValue,
      unmarshalEntries_marshal kvs]
  | .list xs => by
    rw [marshalAttributeValue, unmarshalAttributeValue,
      unmarshalList_marshal xs]
theorem unmarshalEntries_marshal :
    ∀ l, unmarshalEntries (marshalEntries l) = l
  | [] => rfl
  | (k, v) :: rest => by
    rw [marshalEntries, unmarshalEntries, unmarshal_marshal v,
      unmarshalEntries_marshal rest]
theorem unmarshalList_marshal :
    ∀ l, unmarshalList (marshalList l) = l
  | [] => rfl
  | v :: rest => by
    rw [marshalList, unmarshalList, unmarshal_marshal v,
      unmarshalList_marshal rest]
end

/-- C9: decoding the encoded wire form of any representable native value
returns the value unchanged (`decode (encode x) = x`), at the single-value
and whole-item level; in particular a wire number decodes to its original
decimal text (as a string, with no floating-point conversion). -/
theorem C9_codec_roundtrip :
    (∀ v : NativeVal, unmarshalAttributeValue (marshalAttributeValue v) = v) ∧
    (∀ item : List (Str × NativeVal),
      unmarshalItem (marshalEntries item) = item) ∧
    (∀ s : Str, unmarshalAttributeValue (.N s) = .str s) :=
  ⟨unmarshal_marshal, fun item => unmarshalEntries_marshal item, fun _ => rfl⟩

end DynoTUI
namespace DynoTUI

/-- One entry of `result.Responses` from a `BatchExecuteStatement` call
(`types.BatchStatementResponse`): an optional per-statement error (code and
message) and an optional returned item.  The SDK unmarshal of a returned
item into `map[string]interface\x7b\x7d` (whose failure branch would drop
the item silently) is modelled by carrying the already-decoded item. -/
structure BatchResp where
  error : Option (Str × Str)
  item : Option ItemMap

/-- One recorded per-statement failure: the 1-based global statement index
`i + j + 1` together with the code and message interpolated into the Go
error string `Statement %d failed: %s - %s` (aws.go lines 102-106). -/
abbrev ErrRec := Nat × Str × Str

/-- The response-processing loop of one chunk in `BatchSqlQuery`
(aws.go lines 100-116): a response with an error is recorded with its global
statement index; a success carrying an item appends the item; a success
without an item records nothing. -/
def respsAccounting (i j : Nat) : List BatchResp → List ItemMap × List ErrRec
  | [] => ([], [])
  | r :: rest =>
    let acc := respsAccounting i (j + 1) rest
    match r.error with
    | some (code, msg) => (acc.1, (i + j + 1, code, msg) :: acc.2)
    | none =>
      match r.item with
      | some it => (it :: acc.1, acc.2)
      | none => acc

/-- The result of one remote `BatchExecuteStatement` round-trip: a
transport-level error, or the per-statement responses of a successful
call. -/
abbrev CallResult := Except Str (List BatchResp)

/-- The outcome of `BatchSqlQuery`: a transport failure at some chunk
(returning the items accumulated so far together with the failing chunk's
global index range `lo`-`hi`, mirroring `batch execution failed at chunk
%d-%d`), or completion with all per-statement failures recorded (Go then
returns an error iff that failure list is non-empty).  `submitted` is ghost
instrumentation listing the chunks passed to the remote call, in order. -/
inductive BatchOut where
  | transport (items : List ItemMap) (msgs : List ErrRec)
      (submitted : List (List Str)) (lo hi : Nat) (e : Str)
  | finished (items : List ItemMap) (msgs : List ErrRec)
      (submitted : List (List Str))

/-- Fueled chunking worker; one unit of fuel per chunk, each chunk consumes
at least one element, so fuel equal to the list length always suffices. -/
def chunksGo {α : Type} : Nat → List α → List (List α)
  | 0, _ => []
  | _ + 1, [] => []
  | fuel + 1, a :: rest =>
    ((a :: rest).take 25) :: chunksGo fuel ((a :: rest).drop 25)

/-- The chunk decomposition `statements[i:i+25]` for `i = 0, 25, 50, …`
performed by the loop of `BatchSqlQuery` (aws.go line 77). -/
def chunks25 {α : Type} (l : List α) : List (List α) := chunksGo l.length l

/-- The chunk loop of `BatchSqlQuery` (aws.go lines 77-117), written over
the chunk decomposition of the statement list.  `call` counts remote calls
made so far (indexing into the supplied script of remote results) and `i` is
the Go loop variable — the global index of the chunk's first statement.  A
transport error aborts immediately with the accumulated state; otherwise the
chunk's responses are folded into the accumulators and the loop continues. -/
def batchLoop (script : Nat → CallResult) :
    Nat → Nat → List (List Str) → List ItemMap → List ErrRec →
    List (List Str) → BatchOut
  | _, _, [], items, msgs, subm => .finished items msgs subm
  | call, i, chunk :: rest, items, msgs, subm =>
    match script call with
    | .error e => .transport items msgs (subm ++ [chunk]) i (i + chunk.length) e
    | .ok resps =>
      let acc := respsAccounting i 0 resps
      batchLoop script (call + 1) (i + 25) rest (items ++ acc.1)
        (msgs ++ acc.2) (subm ++ [chunk])

/-- The function `BatchSqlQuery` (aws.go lines 70-124), with the remote
`BatchExecuteStatement` collaborator supplied as a script mapping the k-th
call to its result. -/
def BatchSqlQuery (script : Nat → CallResult) (statements : List Str) :
    BatchOut :=
  batchLoop script 0 0 (chunks25 statements) [] [] []

/-- The items accumulated by `k` successful chunk calls starting at call
index `call` and statement offset `i`. -/
def allOkItems (rs : Nat → List BatchResp) : Nat → Nat → Nat → List ItemMap
  | _, _, 0 => []
  | call, i, n + 1 =>
    (respsAccounting i 0 (rs call)).1 ++ allOkItems rs (call + 1) (i + 25) n

/-- The failure records accumulated by `k` successful chunk calls starting
at call index `call` and statement offset `i`. -/
def allOkMsgs (rs : Nat → List BatchResp) : Nat → Nat → Nat → List ErrRec
  | _, _, 0 => []
  | call, i, n + 1 =>
    (respsAccounting i 0 (rs call)).2 ++ allOkMsgs rs (call + 1) (i + 25) n

end DynoTUI
namespace DynoTUI

theorem chunksGo_nil {α : Type} : ∀ f : Nat, chunksGo f ([] : List α) = [] := by
  intro f
  cases f with
  | zero => rfl
  | succ g => rfl

theorem chunksGo_fuel_eq {α : Type} :
    ∀ (f1 : Nat) (l : List α) (f2 : Nat),
      l.length ≤ f1 → l.length ≤ f2 → chunksGo f1 l = chunksGo f2 l := by
  intro f1
  induction f1 with
  | zero =>
    intro l f2 h1 h2
    cases l with
    | nil => rw [chunksGo_nil, chunksGo_nil]
    | cons a rest => simp at h1
  | succ g ih =>
    intro l f2 h1 h2
    cases l with
    | nil => rw [chunksGo_nil, chunksGo_nil]
    | cons a rest =>
      cases f2 with
      | zero => simp at h2
      | succ g2 =>
        simp only [chunksGo]
        congr 1
        apply ih
        · simp only [List.length_drop, List.length_cons]
          simp only [List.length_cons] at h1
          omega
        · simp only [List.length_drop, List.length_cons]
          simp only [List.length_cons] at h2
          omega

theorem chunks25_eq {α : Type} (l : List α) :
    chunks25 l =
      if l.isEmpty then [] else l.take 25 :: chunks25 (l.drop 25) := by
  cases l with
  | nil => rfl
  | cons a rest =>
    simp only [List.isEmpty_cons, if_neg Bool.false_ne_true]
    show chunksGo (rest.length + 1) (a :: rest) = _
    simp only [chunksGo]
    congr 1
    apply chunksGo_fuel_eq
    · simp only [List.length_drop, List.length_cons]
      omega
    · exact le_rfl

theorem chunks25_flatten_aux {α : Type} :
    ∀ (n : Nat) (l : List α), l.length ≤ n → (chunks25 l).flatten = l := by
  intro n
  induction n with
  | zero =>
    intro l h
    cases l with
    | nil => rfl
    | cons a rest => simp at h
  | succ m ih =>
    intro l h
    rw [chunks25_eq]
    cases l with
    | nil => rfl
    | cons a rest =>
      simp only [List.isEmpty_cons, if_neg Bool.false_ne_true,
        List.flatten_cons]
      rw [ih ((a :: rest).drop 25)
        (by simp only [List.length_drop, List.length_cons]
            simp only [List.length_cons] at h
            omega)]
      exact List.take_append_drop 25 (a :: rest)

theorem chunks25_flatten {α : Type} (l : List α) : (chunks25 l).flatten = l :=
  chunks25_flatten_aux l.length l le_rfl

theorem chunks25_length_aux {α : Type} :
    ∀ (n : Nat) (l : List α), l.length ≤ n →
      (chunks25 l).length = (l.length + 24) / 25 := by
  intro n
  induction n with
  | zero =>
    intro l h
    cases l with
    | nil => simp [chunks25, chunksGo]
    | cons a rest => simp at h
  | succ m ih =>
    intro l h
    rw [chunks25_eq]
    cases l with
    | nil => simp [chunks25, chunksGo]
    | cons a rest =>
      simp only [List.isEmpty_cons, if_neg Bool.false_ne_true, List.length_cons]
      rw [ih ((a :: rest).drop 25)
        (by simp only [List.length_drop, List.length_cons]
            simp only [List.length_cons] at h
            omega)]
      simp only [List.length_drop, List.length_cons]
      omega

theorem chunks25_length {α : Type} (l : List α) :
    (chunks25 l).length = (l.length + 24) / 25 :=
  chunks25_length_aux l.length l le_rfl

theorem chunks25_sizes_aux {α : Type} :
    ∀ (n : Nat) (l : List α) (c : List α), l.length ≤ n →
      c ∈ chunks25 l → c.length ≤ 25 := by
  intro n
  induction n with
  | zero =>
    intro l c h hc
    cases l with
    | nil => simp [chunks25, chunksGo] at hc
    | cons a rest => simp at h
  | succ m ih =>
    intro l c h hc
    rw [chunks25_eq] at hc
    cases l with
    | nil => simp at hc
    | cons a rest =>
      simp only [List.isEmpty_cons, if_neg Bool.false_ne_true,
        List.mem_cons] at hc
      rcases hc with rfl | hc
      · simp only [List.length_take]
        omega
      · exact ih ((a :: rest).drop 25) c
          (by simp only [List.length_drop, List.length_cons]
              simp only [List.length_cons] at h
              omega) hc

theorem chunks25_sizes {α : Type} (l : List α) (c : List α)
    (hc : c ∈ chunks25 l) : c.length ≤ 25 :=
  chunks25_sizes_aux l.length l c le_rfl hc

theorem chunks25_getD_length_aux {α : Type} :
    ∀ (n : Nat) (l : List α) (k : Nat), l.length ≤ n →
      k < (chunks25 l).length →
      ((chunks25 l).getD k []).length = min 25 (l.length - 25 * k) := by
  intro n
  induction n with
  | zero =>
    intro l k h hk
    cases l with
    | nil => simp [chunks25, chunksGo] at hk
    | cons a rest => simp at h
  | succ m ih =>
    intro l k h hk
    rw [chunks25_eq] at hk ⊢
    cases l with
    | nil => simp [chunks25, chunksGo] at hk
    | cons a rest =>
      simp only [List.isEmpty_cons, if_neg Bool.false_ne_true] at hk ⊢
      cases k with
      | zero =>
        simp only [List.getD_cons_zero, List.length_take]
        omega
      | succ k2 =>
        simp only [List.getD_cons_succ]
        simp only [List.length_cons] at hk
        rw [ih ((a :: rest).drop 25) k2
          (by simp only [List.length_drop, List.length_cons]
              simp only [List.length_cons] at h
              omega)
          (by simpa using Nat.lt_of_succ_lt_succ hk)]
        simp only [List.length_drop, List.length_cons]
        omega

theorem chunks25_getD_length {α : Type} (l : List α) (k : Nat)
    (hk : k < (chunks25 l).length) :
    ((chunks25 l).getD k []).length = min 25 (l.length - 25 * k) :=
  chunks25_getD_length_aux l.length l k le_rfl hk

end DynoTUI
namespace DynoTUI

theorem batchLoop_allOk (script : Nat → CallResult)
    (rs : Nat → List BatchResp) :
    ∀ (chunks : List (List Str)) (call i : Nat) (items : List ItemMap)
      (msgs : List ErrRec) (subm : List (List Str)),
      (∀ k, k < chunks.length → script (call + k) = .ok (rs (call + k))) →
      batchLoop script call i chunks items msgs subm =
        .finished (items ++ allOkItems rs call i chunks.length)
          (msgs ++ allOkMsgs rs call i chunks.length)
          (subm ++ chunks) := by
  intro chunks
  induction chunks with
  | nil =>
    intro call i items msgs subm _
    simp [batchLoop, allOkItems, allOkMsgs]
  | cons c rest ih =>
    intro call i items msgs subm h
    have h0 : script call = .ok (rs call) := by
      simpa using h 0 (by simp)
    simp only [batchLoop, h0]
    rw [ih (call + 1) (i + 25) _ _ _ ?_]
    · simp only [List.length_cons, allOkItems, allOkMsgs, List.append_assoc,
        List.cons_append, List.nil_append]
    · intro k hk
      have hx := h (k + 1) (by simpa using Nat.succ_lt_succ hk)
      have he : call + (k + 1) = call + 1 + k := by omega
      rw [he] at hx
      exact hx

theorem batchLoop_transport (script : Nat → CallResult)
    (rs : Nat → List BatchResp) (e : Str) :
    ∀ (chunks : List (List Str)) (k call i : Nat) (items : List ItemMap)
      (msgs : List ErrRec) (subm : List (List Str)),
      (∀ j, j < k → script (call + j) = .ok (rs (call + j))) →
      script (call + k) = .error e →
      k < chunks.length →
      batchLoop script call i chunks items msgs subm =
        .transport (items ++ allOkItems rs call i k)
          (msgs ++ allOkMsgs rs call i k)
          (subm ++ chunks.take (k + 1))
          (i + 25 * k) (i + 25 * k + (chunks.getD k []).length) e := by
  intro chunks
  induction chunks with
  | nil =>
    intro k call i items msgs subm _ _ hk
    simp at hk
  | cons c rest ih =>
    intro k call i items msgs subm hok herr hk
    cases k with
    | zero =>
      have h0 : script call = .error e := by simpa using herr
      simp [batchLoop, h0, allOkItems, allOkMsgs]
    | succ k2 =>
      have h0 : script call = .ok (rs call) := by
        simpa using hok 0 (by omega)
      simp only [batchLoop, h0]
      rw [ih k2 (call + 1) (i + 25) _ _ _ ?_ ?_ ?_]
      · have e1 : i + 25 + 25 * k2 = i + 25 * (k2 + 1) := by omega
        simp only [allOkItems, allOkMsgs, List.append_assoc, List.take_succ_cons,
          List.cons_append, List.nil_append, List.getD_cons_succ, e1]
      · intro j hj
        have hx := hok (j + 1) (by omega)
        have he : call + (j + 1) = call + 1 + j := by omega
        rw [he] at hx
        exact hx
      · have he : call + (k2 + 1) = call + 1 + k2 := by omega
        rw [he] at herr
        exact herr
      · simpa using Nat.lt_of_succ_lt_succ hk

end DynoTUI
namespace DynoTUI

theorem respsAccounting_counts :
    ∀ (resps : List BatchResp) (i j : Nat),
      (∀ r ∈ resps, r.error ≠ none ∨ r.item ≠ none) →
      (respsAccounting i j resps).1.length +
        (respsAccounting i j resps).2.length = resps.length := by
  intro resps
  induction resps with
  | nil => intro i j _; rfl
  | cons r rest ih =>
    intro i j h
    have hr := h r (by simp)
    have hrest : ∀ x ∈ rest, x.error ≠ none ∨ x.item ≠ none :=
      fun x hx => h x (List.mem_cons_of_mem r hx)
    have hc := ih i (j + 1) hrest
    cases he : r.error with
    | some p =>
      cases p with
      | mk code msg =>
        simp only [respsAccounting, he, List.length_cons]
        omega
    | none =>
      cases hi : r.item with
      | some it =>
        simp only [respsAccounting, he, hi, List.length_cons]
        omega
      | none =>
        rcases hr with h1 | h2
        · exact absurd he h1
        · exact absurd hi h2

theorem allOk_counts (rs : Nat → List BatchResp) :
    ∀ (chunks : List (List Str)) (call i : Nat),
      (∀ k, k < chunks.length →
        ∀ r ∈ rs (call + k), r.error ≠ none ∨ r.item ≠ none) →
      (∀ k, k < chunks.length →
        (rs (call + k)).length = (chunks.getD k []).length) →
      (allOkItems rs call i chunks.length).length +
        (allOkMsgs rs call i chunks.length).length =
        (chunks.map List.length).sum := by
  intro chunks
  induction chunks with
  | nil => intro call i _ _; simp [allOkItems, allOkMsgs]
  | cons c rest ih =>
    intro call i herr halign
    have h0e : ∀ r ∈ rs call, r.error ≠ none ∨ r.item ≠ none := by
      have := herr 0 (by simp)
      simpa using this
    have h0a : (rs call).length = c.length := by
      have := halign 0 (by simp)
      simpa using this
    have hcount := respsAccounting_counts (rs call) i 0 h0e
    have hrest := ih (call + 1) (i + 25) ?_ ?_
    · simp only [List.length_cons, allOkItems, allOkMsgs, List.length_append,
        List.map_cons, List.sum_cons]
      omega
    · intro k hk
      have hx := herr (k + 1) (by simpa using Nat.succ_lt_succ hk)
      have he2 : call + (k + 1) = call + 1 + k := by omega
      rw [he2] at hx
      simpa using hx
    · intro k hk
      have hx := halign (k + 1) (by simpa using Nat.succ_lt_succ hk)
      have he2 : call + (k + 1) = call + 1 + k := by omega
      rw [he2] at hx
      simpa using hx

end DynoTUI
namespace DynoTUI

/-- Fifty-seven identical generated statements. -/
def ex57 : List Str := List.replicate 57 (strL "DELETE FROM \"T\" WHERE \"id\"=1")

/-- A successful batch response carrying neither an error nor an item — what
DynamoDB returns for a succeeded write statement. -/
def okNoItem : BatchResp := { error := none, item := none }

/-- A remote script answering every call with all-success, no-item
responses of the sizes the three chunks of 57 statements have. -/
def ex57Script : Nat → CallResult
  | 0 => .ok (List.replicate 25 okNoItem)
  | 1 => .ok (List.replicate 25 okNoItem)
  | _ => .ok (List.replicate 7 okNoItem)

/-- C7, counterexample: 57 statements are chunked as 25/25/7 and submitted
in order, but when every statement succeeds without returning an item (the
normal case for deletes) the aggregated outcome records zero per-statement
results — not one per statement (not 57). -/
theorem C7_accounting_counterexample :
    BatchSqlQuery ex57Script ex57 = .finished [] [] (chunks25 ex57) ∧
    ex57.length = 57 ∧
    (chunks25 ex57).map List.length = [25, 25, 7] := by
  refine ⟨by rfl, by rfl, by rfl⟩

/-- C7, amended: the statements are split into `ceil(N/25)` chunks of at
most 25 statements each whose in-order concatenation is the original list,
and (absent transport failures) exactly those chunks are submitted in order;
the aggregated outcome gains one indexed record per failed response and one
item per success response carrying an item, so it accounts for all `N`
statements — one result each — exactly when every response carries an error
or an item. -/
theorem C7_chunking_amended :
    (∀ l : List Str, (chunks25 l).length = (l.length + 24) / 25) ∧
    (∀ (l : List Str) (c : List Str), c ∈ chunks25 l → c.length ≤ 25) ∧
    (∀ l : List Str, (chunks25 l).flatten = l) ∧
    (∀ (statements : List Str) (script : Nat → CallResult)
        (rs : Nat → List BatchResp),
      (∀ k, script k = .ok (rs k)) →
      (∀ k, k < (chunks25 statements).length →
        ∀ r ∈ rs k, r.error ≠ none ∨ r.item ≠ none) →
      (∀ k, k < (chunks25 statements).length →
        (rs k).length = ((chunks25 statements).getD k []).length) →
      ∃ items msgs,
        BatchSqlQuery script statements =
          .finished items msgs (chunks25 statements) ∧
        items.length + msgs.length = statements.length) := by
  refine ⟨chunks25_length, chunks25_sizes, chunks25_flatten, ?_⟩
  intro statements script rs hok herr halign
  refine ⟨allOkItems rs 0 0 (chunks25 statements).length,
    allOkMsgs rs 0 0 (chunks25 statements).length, ?_, ?_⟩
  · have h := batchLoop_allOk script rs (chunks25 statements) 0 0 [] [] []
      (fun k _ => hok (0 + k))
    simpa using h
  · have h := allOk_counts rs (chunks25 statements) 0 0
      (fun k hk => by simpa using herr k hk)
      (fun k hk => by simpa using halign k hk)
    rw [h, ← List.length_flatten, chunks25_flatten]

/-- Witness for `C7_chunking_amended`: 57 statements, every response carries
an item, outcome accounts for all 57. -/
theorem C7_chunking_amended_witness :
    ∃ items msgs,
      BatchSqlQuery
        (fun k => .ok (List.replicate (if k = 0 then 25 else if k = 1 then 25 else 7)
          ({ error := none, item := some exItem } : BatchResp))) ex57 =
        .finished items msgs (chunks25 ex57) ∧
      items.length + msgs.length = ex57.length :=
  C7_chunking_amended.2.2.2 ex57 _
    (fun k => List.replicate (if k = 0 then 25 else if k = 1 then 25 else 7)
      { error := none, item := some exItem })
    (fun _ => rfl)
    (by
      intro k hk r hr
      right
      have := List.eq_of_mem_replicate hr
      rw [this]
      simp)
    (by
      intro k hk
      have h3 : (chunks25 ex57).length = 3 := by rfl
      rw [h3] at hk
      interval_cases k <;> rfl)

end DynoTUI
namespace DynoTUI

/-- C8: when no remote call fails at the transport level, the batch never
aborts: every chunk is submitted (in order), and the final outcome carries
the items of every success response of every chunk, in order, together with
one `(global index, code, message)` record for every failed response of
every chunk — a per-statement failure inside a chunk removes nothing from
its own chunk or any later chunk, and nothing is rolled back. -/
theorem C8_partial_failures_isolated
    (statements : List Str) (script : Nat → CallResult)
    (rs : Nat → List BatchResp)
    (hok : ∀ k, script k = .ok (rs k)) :
    BatchSqlQuery script statements =
      .finished (allOkItems rs 0 0 (chunks25 statements).length)
        (allOkMsgs rs 0 0 (chunks25 statements).length)
        (chunks25 statements) := by
  have h := batchLoop_allOk script rs (chunks25 statements) 0 0 [] [] []
    (fun k _ => hok (0 + k))
  simpa using h

/-- The per-call responses of the C8 witness scenario: chunk 0 all-success
with items, chunk 1 has one failure (at in-chunk position 5), chunk 2
all-success with items. -/
def exC8rs : Nat → List BatchResp
  | 0 => List.replicate 25 { error := none, item := some exItem }
  | 1 => List.replicate 5 ({ error := none, item := some exItem } : BatchResp) ++
      ({ error := some (strL "ValidationException", strL "boom"), item := none } : BatchResp) ::
      List.replicate 19 ({ error := none, item := some exItem } : BatchResp)
  | _ => List.replicate 7 { error := none, item := some exItem }

/-- Witness for `C8_partial_failures_isolated`: with a failure in chunk 2 of
3, all three chunks are submitted, the failure is recorded as global
statement 31 with its code and message, and the 56 successes of chunks 1, 2
and 3 all appear. -/
theorem C8_partial_failures_isolated_witness :
    BatchSqlQuery (fun k => .ok (exC8rs k)) ex57 =
      .finished (allOkItems exC8rs 0 0 3) (allOkMsgs exC8rs 0 0 3)
        (chunks25 ex57) ∧
    allOkMsgs exC8rs 0 0 3 = [(31, strL "ValidationException", strL "boom")] ∧
    (allOkItems exC8rs 0 0 3).length = 56 ∧
    (chunks25 ex57).length = 3 :=
  ⟨by
    have h := C8_partial_failures_isolated ex57 (fun k => .ok (exC8rs k))
      exC8rs (fun _ => rfl)
    have h3 : (chunks25 ex57).length = 3 := by rfl
    rw [h3] at h
    exact h,
   by rfl, by rfl, by rfl⟩

/-- C10: if every call before the `k`-th succeeds and the `k`-th remote
batch call fails as a whole, execution stops at that chunk: exactly the
first `k+1` chunks were submitted (none after), and the function returns the
items accumulated from the earlier chunks together with an error carrying
the failing chunk's global statement index range
`25k` to `25k + min 25 (N - 25k)`. -/
theorem C10_transport_abort
    (statements : List Str) (script : Nat → CallResult)
    (rs : Nat → List BatchResp) (k : Nat) (e : Str)
    (hok : ∀ j, j < k → script j = .ok (rs j))
    (herr : script k = .error e)
    (hk : k < (chunks25 statements).length) :
    BatchSqlQuery script statements =
      .transport (allOkItems rs 0 0 k) (allOkMsgs rs 0 0 k)
        ((chunks25 statements).take (k + 1))
        (25 * k) (25 * k + min 25 (statements.length - 25 * k)) e := by
  have h := batchLoop_transport script rs e (chunks25 statements) k 0 0 [] [] []
    (fun j hj => by simpa using hok j hj) (by simpa using herr) hk
  rw [chunks25_getD_length statements k hk] at h
  simpa using h

/-- Witness for `C10_transport_abort`: 57 statements with a transport
failure at the second call abort with the 25-50 range, the first chunk's
items, and only two chunks submitted. -/
theorem C10_transport_abort_witness :
    BatchSqlQuery
        (fun j => if j = 0 then .ok (exC8rs 0) else .error (strL "timeout"))
        ex57 =
      .transport (allOkItems exC8rs 0 0 1) (allOkMsgs exC8rs 0 0 1)
        ((chunks25 ex57).take 2) 25 50 (strL "timeout") ∧
    (allOkItems exC8rs 0 0 1).length = 25 ∧
    ((chunks25 ex57).take 2).length = 2 :=
  ⟨by
    have h := C10_transport_abort ex57
      (fun j => if j = 0 then .ok (exC8rs 0) else .error (strL "timeout"))
      exC8rs 1 (strL "timeout")
      (by
        intro j hj
        have : j = 0 := by omega
        rw [this]
        rfl)
      (by rfl)
      (by
        have h3 : (chunks25 ex57).length = 3 := by rfl
        rw [h3]
        omega)
    simpa using h,
   by rfl, by rfl⟩

end DynoTUI
